import Mathlib

/-!
Verification development for the recycle-bin trash core.

The repository ships two near-duplicate implementations of the same design:
the bundle at the repository root (called V1 below, classes TrashedFile,
TrashedFolder, TrashManager of the root main.js) and the module variant under
src/ (called V2 below, the main.js that imports utils/constants).  Both are
embedded, since the two variants genuinely disagree on several behaviours
(validation, error handling, listing order, purge traversal).

The storage adapter (exists/read/write/mkdir/rename/remove/rmdir/list/stat)
is modelled as a concrete store of file and directory paths plus a set of
calls designated to raise; every adapter call is appended to a log so that
"performs no storage call" is expressible.  JavaScript exceptions are
modelled by values of Except paired with the state at the throw point, so a
caught exception keeps the mutations made before the throw.  Numbers are
Nat (epoch milliseconds); JavaScript falsy checks on 0 are reproduced
explicitly.  Intl.Collator with sensitivity base is modelled as
case-insensitive code-point comparison (Char.toLower, lexicographic).
-/

-- ============================================================
-- String utilities of the source (root main.js and src/utils.js)
-- ============================================================

/-- One step of JavaScript String.prototype.replace with a plain-string
pattern and empty replacement: removes the first occurrence of the pattern. -/
def replFirst (pat : List Char) : List Char → List Char
  | [] => []
  | c :: rest =>
    if pat.isPrefixOf (c :: rest) then (c :: rest).drop pat.length
    else c :: replFirst pat rest

/-- V1 originalPath getter: path.replace of the first ".trash/" by "". -/
def v1OriginalPath (p : String) : String :=
  String.mk (replFirst ".trash/".toList p.toList)

/-- The regex basename of the root main.js: the final run of non-slash
characters, tolerating one trailing slash; the whole path when no match. -/
def basename (p : String) : String :=
  let cs := p.toList
  let cs2 := if cs.getLast? = some '/' then cs.dropLast else cs
  let seg := (cs2.reverse.takeWhile (fun c => c ≠ '/')).reverse
  if seg.isEmpty then p else String.mk seg

/-- The regex dirname of the root main.js: the longest part before a slash
that still has a character after it, or "." when the regex does not match. -/
def dirname (p : String) : String :=
  let cs := p.toList
  let k? := (List.range cs.length).foldl
    (fun acc k =>
      if cs.getD k ' ' = '/' ∧ 1 ≤ k ∧ k + 2 ≤ cs.length then some k else acc)
    none
  match k? with
  | none => "."
  | some k => String.mk (cs.take k)

/-- JavaScript String.prototype.includes for plain strings. -/
def containsSubL (pat : List Char) : List Char → Bool
  | [] => pat.isEmpty
  | c :: rest => pat.isPrefixOf (c :: rest) || containsSubL pat rest

/-- JavaScript includes on String. -/
def strContains (hay pat : String) : Bool := containsSubL pat.toList hay.toList

/-- JavaScript String.prototype.startsWith. -/
def strStarts (hay pat : String) : Bool := pat.toList.isPrefixOf hay.toList

/-- utils.isValidPath of the src variant: reject empty (falsy) paths, paths
containing "..", absolute paths and paths embedding a scheme marker. -/
def isValidPath (p : String) : Bool :=
  if p = "" then false
  else if strContains p ".." then false
  else if strStarts p "/" || strStarts p "\\" then false
  else if strContains p "://" then false
  else true

/-- JavaScript String.prototype.split on "/". -/
def splitSlash : List Char → List (List Char)
  | [] => [[]]
  | c :: rest =>
    match splitSlash rest with
    | [] => [[]]
    | seg :: segs => if c = '/' then [] :: seg :: segs else (c :: seg) :: segs

/-- Array.prototype.join with separator "/". -/
def joinSegs : List String → String
  | [] => ""
  | [x] => x
  | x :: y :: rest => x ++ "/" ++ joinSegs (y :: rest)

/-- The segments of a path, JavaScript path.split on slash. -/
def pathSegs (p : String) : List String := (splitSlash p.toList).map String.mk

/-- V2 originalPath as computed in the constructors: split on "/", pop the
name, shift off the leading ".trash" segment, rejoin. -/
def v2OriginalPath (p : String) : String :=
  let parts := pathSegs p
  let name := parts.getLast?.getD ""
  let rest := parts.dropLast.drop 1
  if rest.isEmpty then name else joinSegs rest ++ "/" ++ name

/-- V2 parent path of a restore destination: split on "/", drop the last
segment, rejoin (empty when there is no parent). -/
def v2ParentPath (p : String) : String :=
  joinSegs (pathSegs p).dropLast

/-- Path concatenation used for a child of a listed directory. -/
def joinPath (pre n : String) : String := pre ++ "/" ++ n

-- ============================================================
-- Collator model (Intl.Collator, sensitivity base)
-- ============================================================

/-- Three-way comparison on Nat. -/
def cmpN (a b : Nat) : Ordering :=
  if a < b then .lt else if a = b then .eq else .gt

/-- Case-insensitive lexicographic comparison of character lists, the model
of collator.compare. -/
def cmpCL : List Char → List Char → Ordering
  | [], [] => .eq
  | [], _ :: _ => .lt
  | _ :: _, [] => .gt
  | a :: as, b :: bs =>
    match cmpN a.toLower.toNat b.toLower.toNat with
    | .eq => cmpCL as bs
    | o => o

/-- collator.compare on strings. -/
def collCmp (a b : String) : Ordering := cmpCL a.toList b.toList

/-- Boolean "a is not after b" under the collator, the order produced by
Array.prototype.sort with this comparator. -/
def collLEb (a b : String) : Bool := collCmp a b != Ordering.gt

/-- The sort relation as a Prop. -/
def nameLE (a b : String) : Prop := collLEb a b = true

instance : DecidableRel nameLE := fun a b => by unfold nameLE; infer_instance

-- ============================================================
-- Storage adapter model
-- ============================================================

/-- One adapter call, recorded in the log. -/
inductive Call where
  | exi (p : String)
  | readF (p : String)
  | writeF (p : String)
  | mkdir (p : String)
  | rename (src dst : String)
  | remove (p : String)
  | rmdir (p : String) (recursive : Bool)
  | listDir (p : String)
  | statC (p : String)
deriving DecidableEq, Repr

/-- The backing store: file paths with contents, directory paths, and the
set of calls designated to raise an error. -/
structure Stg where
  files : List (String × String)
  dirs : List String
  failing : List Call
deriving DecidableEq, Repr

/-- Adapter state: the store plus the chronological log of calls made. -/
structure S where
  stg : Stg
  log : List Call
deriving DecidableEq, Repr

/-- A path exists when it is a file or a directory of the store. -/
def pathExists (g : Stg) (p : String) : Bool :=
  g.files.any (fun f => f.1 = p) || g.dirs.contains p

def logC (c : Call) (s : S) : S := { s with log := s.log ++ [c] }

def failsOn (s : S) (c : Call) : Bool := decide (c ∈ s.stg.failing)

/-- adapter.exists. -/
def opExists (p : String) (s : S) : Except String Bool × S :=
  let s := logC (.exi p) s
  if failsOn s (.exi p) then (.error "exists raised", s)
  else (.ok (pathExists s.stg p), s)

/-- adapter.read. -/
def opRead (p : String) (s : S) : Except String String × S :=
  let s := logC (.readF p) s
  if failsOn s (.readF p) then (.error "read raised", s)
  else match s.stg.files.find? (fun f => f.1 = p) with
    | some f => (.ok f.2, s)
    | none => (.error "read missing", s)

/-- adapter.write: creates or replaces the file. -/
def opWrite (p content : String) (s : S) : Except String Unit × S :=
  let s := logC (.writeF p) s
  if failsOn s (.writeF p) then (.error "write raised", s)
  else (.ok (),
    { s with stg :=
      { s.stg with files := s.stg.files.filter (fun f => f.1 ≠ p) ++ [(p, content)] } })

/-- adapter.mkdir: creates the directory, a no-op when already present. -/
def opMkdir (p : String) (s : S) : Except String Unit × S :=
  let s := logC (.mkdir p) s
  if failsOn s (.mkdir p) then (.error "mkdir raised", s)
  else (.ok (),
    { s with stg :=
      { s.stg with dirs := if s.stg.dirs.contains p then s.stg.dirs else s.stg.dirs ++ [p] } })

/-- Path rewriting performed by a rename: the path itself and everything
below it move under the destination. -/
def renamePath (src dst p : String) : String :=
  if p = src then dst
  else if (src ++ "/").toList.isPrefixOf p.toList
  then dst ++ "/" ++ (p.drop (src.length + 1))
  else p

/-- adapter.rename: atomic move of a file or a directory subtree. -/
def opRename (src dst : String) (s : S) : Except String Unit × S :=
  let s := logC (.rename src dst) s
  if failsOn s (.rename src dst) then (.error "rename raised", s)
  else if pathExists s.stg src then
    (.ok (),
      { s with stg :=
        { s.stg with
          files := s.stg.files.map (fun f => (renamePath src dst f.1, f.2)),
          dirs := s.stg.dirs.map (renamePath src dst) } })
  else (.error "rename missing source", s)

/-- adapter.remove: deletes a single file. -/
def opRemove (p : String) (s : S) : Except String Unit × S :=
  let s := logC (.remove p) s
  if failsOn s (.remove p) then (.error "remove raised", s)
  else if s.stg.files.any (fun f => f.1 = p) then
    (.ok (), { s with stg := { s.stg with files := s.stg.files.filter (fun f => f.1 ≠ p) } })
  else (.error "remove missing", s)

/-- Is q strictly below directory p. -/
def underDir (p q : String) : Bool := (p ++ "/").toList.isPrefixOf q.toList

/-- adapter.rmdir: deletes a directory, recursively when asked; raises on a
missing directory or on a non-recursive delete of a non-empty directory. -/
def opRmdir (p : String) (recursive : Bool) (s : S) : Except String Unit × S :=
  let s := logC (.rmdir p recursive) s
  if failsOn s (.rmdir p recursive) then (.error "rmdir raised", s)
  else if s.stg.dirs.contains p then
    if recursive then
      (.ok (),
        { s with stg :=
          { s.stg with
            files := s.stg.files.filter (fun f => ¬ underDir p f.1),
            dirs := s.stg.dirs.filter (fun d => d ≠ p ∧ ¬ (underDir p d = true)) } })
    else if s.stg.files.any (fun f => underDir p f.1) || s.stg.dirs.any (fun d => underDir p d) then
      (.error "rmdir not empty", s)
    else
      (.ok (), { s with stg := { s.stg with dirs := s.stg.dirs.filter (fun d => d ≠ p) } })
  else (.error "rmdir missing", s)

/-- True when an Except result is a success. -/
def isOkE {ε α : Type} : Except ε α → Bool
  | .ok _ => true
  | .error _ => false

/-- The payload of a successful stat outcome (junk default on error). -/
def exceptSV : Except String (Option StatV) → Option StatV
  | .ok v => v
  | .error _ => none

-- ============================================================
-- The trash tree (entries as built by the managers)
-- ============================================================

/-- stat payload of the adapter. -/
structure StatV where
  size : Nat
  mtime : Nat
deriving DecidableEq, Repr

/-- An entry of the in-memory trash tree.  A file stores the normalised
size (stat.size or 0) and mtime (stat.mtime or absent, 0 being falsy); a
folder stores the mtime of its own stat (V1) and its ordered children. -/
inductive Item where
  | file (path name : String) (size : Nat) (mtime : Option Nat)
  | folder (path name : String) (mtime : Option Nat) (children : List Item)

/-- stat.mtime under the JavaScript "stat?.mtime || null" normalisation. -/
def mtimeOf : Option StatV → Option Nat
  | none => none
  | some v => if v.mtime = 0 then none else some v.mtime

/-- stat.size under "stat?.size || 0". -/
def sizeOfStat : Option StatV → Nat
  | none => 0
  | some v => v.size

def Item.path : Item → String
  | .file p _ _ _ => p
  | .folder p _ _ _ => p

def Item.nameF : Item → String
  | .file _ n _ _ => n
  | .folder _ n _ _ => n

def Item.mtimeF : Item → Option Nat
  | .file _ _ _ m => m
  | .folder _ _ m _ => m

def isFolderB : Item → Bool
  | .folder _ _ _ _ => true
  | _ => false

-- ============================================================
-- V1 entry operations (root main.js TrashedFile / TrashedFolder)
-- ============================================================

/-- The tail of V1 TrashedFile.restore after the destination checks: the
rename; on its success the entry detaches from its parent and restore
returns true (the ok true result below stands for exactly that path). -/
def v1MoveFile (path rp : String) (s : S) : Except String Bool × S :=
  match opRename path rp s with
  | (.error e, s) => (.error e, s)
  | (.ok _, s) => (.ok true, s)

/-- V1 TrashedFile.restore.  No validation, no try/catch: adapter errors
propagate to the caller.  ok false is the early return on an existing
destination; ok true is the success path (after detaching from the parent). -/
def v1FileRestore (path : String) (s : S) : Except String Bool × S :=
  let rp := v1OriginalPath path
  match opExists rp s with
  | (.error e, s) => (.error e, s)
  | (.ok true, s) => (.ok false, s)
  | (.ok false, s) =>
    let pd := dirname rp
    if pd = "." then v1MoveFile path rp s
    else match opExists pd s with
      | (.error e, s) => (.error e, s)
      | (.ok true, s) => v1MoveFile path rp s
      | (.ok false, s) =>
        match opMkdir pd s with
        | (.error e, s) => (.error e, s)
        | (.ok _, s) => v1MoveFile path rp s

/-- V1 TrashedFolder.restore: existence check then a single rename of the
whole directory; no validation, no try/catch. -/
def v1FolderRestore (path : String) (s : S) : Except String Bool × S :=
  let rp := v1OriginalPath path
  match opExists rp s with
  | (.error e, s) => (.error e, s)
  | (.ok true, s) => (.ok false, s)
  | (.ok false, s) =>
    match opRename path rp s with
    | (.error e, s) => (.error e, s)
    | (.ok _, s) => (.ok true, s)

/-- V1 TrashedFile.delete: plain remove, errors propagate. -/
def v1FileDelete (path : String) (s : S) : Except String Unit × S :=
  opRemove path s

/-- V1 TrashedFolder.delete: recursive rmdir, errors propagate. -/
def v1FolderDelete (path : String) (s : S) : Except String Unit × S :=
  opRmdir path true s

-- ============================================================
-- V2 entry operations (src/main.js TrashedFile / TrashedFolder)
-- ============================================================

/-- The catch clause wrapped around every V2 restore and delete: an
exception is logged and converted into the boolean failure result, keeping
the state reached at the throw point. -/
def catchFalse (r : Except String Bool × S) : Except String Bool × S :=
  match r with
  | (.error _, s) => (.ok false, s)
  | (.ok b, s) => (.ok b, s)

/-- Write destination then remove source, the tail of V2 file restore. -/
def v2WriteMove (path op content : String) (s : S) : Except String Bool × S :=
  match opWrite op content s with
  | (.error e, s) => (.error e, s)
  | (.ok _, s) =>
    match opRemove path s with
    | (.error e, s) => (.error e, s)
    | (.ok _, s) => (.ok true, s)

/-- Body of V2 TrashedFile.restore, before its catch: validate, check the
destination, read the source, ensure the parent directory, write, remove. -/
def v2FileRestoreBody (path : String) (s : S) : Except String Bool × S :=
  let op := v2OriginalPath path
  if ¬ isValidPath op then (.ok false, s)
  else match opExists op s with
  | (.error e, s) => (.error e, s)
  | (.ok true, s) => (.ok false, s)
  | (.ok false, s) =>
    match opRead path s with
    | (.error e, s) => (.error e, s)
    | (.ok content, s) =>
      let pp := v2ParentPath op
      if pp ≠ "" then
        match opMkdir pp s with
        | (.error e, s) => (.error e, s)
        | (.ok _, s) => v2WriteMove path op content s
      else v2WriteMove path op content s

/-- V2 TrashedFile.restore with its catch. -/
def v2FileRestore (path : String) (s : S) : Except String Bool × S :=
  catchFalse (v2FileRestoreBody path s)

mutual

/-- V2 restore of an entry: a file runs the file body, a folder validates,
recreates its destination directory, restores every child (results
ignored), then removes the trash source; each level has its own catch. -/
def v2Restore : Item → S → Except String Bool × S
  | .file p _ _ _, s => catchFalse (v2FileRestoreBody p s)
  | .folder p _ _ kids, s => catchFalse (v2FolderBody p kids s)

/-- Body of V2 TrashedFolder.restore, before its catch. -/
def v2FolderBody (p : String) (kids : List Item) (s : S) : Except String Bool × S :=
  let op := v2OriginalPath p
  if ¬ isValidPath op then (.ok false, s)
  else match opMkdir op s with
  | (.error e, s) => (.error e, s)
  | (.ok _, s) =>
    match v2RestoreList kids s with
    | (.error e, s) => (.error e, s)
    | (.ok _, s) =>
      match opRmdir p true s with
      | (.error e, s) => (.error e, s)
      | (.ok _, s) => (.ok true, s)

/-- The for-loop over a folder's children in V2 restore. -/
def v2RestoreList : List Item → S → Except String Unit × S
  | [], s => (.ok (), s)
  | i :: rest, s =>
    match v2Restore i s with
    | (.error e, s) => (.error e, s)
    | (.ok _, s) => v2RestoreList rest s

end

/-- V2 delete of an entry, with its catch: remove for a file, recursive
rmdir for a folder, errors converted to the boolean failure result. -/
def v2Delete (i : Item) (s : S) : Except String Bool × S :=
  match i with
  | .file p _ _ _ =>
    (match opRemove p s with
     | (.error _, s) => (.ok false, s)
     | (.ok _, s) => (.ok true, s))
  | .folder p _ _ _ =>
    (match opRmdir p true s with
     | (.error _, s) => (.ok false, s)
     | (.ok _, s) => (.ok true, s))

-- ============================================================
-- Derived metrics and manager queries (V1 main.js)
-- ============================================================

mutual

/-- Entry size: a file's stored size, a folder's recursive sum over its
children (the V1 and V2 size getters are identical). -/
def Item.sizeF : Item → Nat
  | .file _ _ sz _ => sz
  | .folder _ _ _ kids => sizeList kids

/-- children.reduce of the folder size getter. -/
def sizeList : List Item → Nat
  | [] => 0
  | i :: r => Item.sizeF i + sizeList r

end

/-- V1 TrashManager.countItems: every node counts one, folders recurse. -/
def v1CountItems : List Item → Nat
  | [] => 0
  | i :: rest =>
    1 + (match i with
         | .folder _ _ _ kids => v1CountItems kids
         | _ => 0) + v1CountItems rest

/-- V1 TrashManager.flattenItems: depth-first pre-order linearisation. -/
def v1Flatten : List Item → List Item
  | [] => []
  | i :: rest =>
    i :: ((match i with
           | .folder _ _ _ kids => v1Flatten kids
           | _ => []) ++ v1Flatten rest)

/-- V1 isEmpty getter: root.children.length === 0. -/
def v1IsEmpty (items : List Item) : Bool := items.isEmpty

/-- V1 totalSize getter: the root folder's derived size. -/
def v1TotalSize (items : List Item) : Nat := sizeList items

/-- Sum of the sizes of the file entries of a list (used to state the size
aggregation claim: folders contribute nothing themselves). -/
def fileSizesSum : List Item → Nat
  | [] => 0
  | .file _ _ sz _ :: r => sz + fileSizesSum r
  | .folder _ _ _ _ :: r => fileSizesSum r

-- ============================================================
-- Age computation and purge (V1)
-- ============================================================

def msPerDay : Nat := 86400000

/-- daysSince of the root main.js: a falsy timestamp (absent or 0) gives 0,
otherwise the floored day difference from now. -/
def daysSince (now : Nat) : Option Nat → Nat
  | none => 0
  | some t => if t = 0 then 0 else (now - t) / msPerDay

/-- V1 TrashManager.findItemsOlderThan: an entry at least days old is
collected whole; otherwise a folder is recursed into. -/
def v1Find (now days : Nat) : List Item → List Item
  | [] => []
  | i :: rest =>
    (if days ≤ daysSince now i.mtimeF then [i]
     else match i with
       | .folder _ _ _ kids => v1Find now days kids
       | _ => []) ++ v1Find now days rest

/-- The tree left after V1 purgeOlderThan deleted every found entry (each
delete detaches the entry from its parent's children). -/
def v1PurgeTree (now days : Nat) : List Item → List Item
  | [] => []
  | i :: rest =>
    if days ≤ daysSince now i.mtimeF then v1PurgeTree now days rest
    else match i with
      | .folder p n m kids => Item.folder p n m (v1PurgeTree now days kids) :: v1PurgeTree now days rest
      | f => f :: v1PurgeTree now days rest

/-- V1 TrashManager.purgeOlderThan: collect, delete each found entry (the
storage deletes are modelled as succeeding; the claim is about the
traversal policy and the returned count), return the count and the tree. -/
def v1PurgeOlderThan (now days : Nat) (items : List Item) : Nat × List Item :=
  ((v1Find now days items).length, v1PurgeTree now days items)

-- ============================================================
-- V2 manager: derived mtime, purge, empty
-- ============================================================

mutual

/-- V2 mtime getter: a file's stat mtime or 0; a folder's maximum over its
children, 0 when childless. -/
def v2Mtime : Item → Nat
  | .file _ _ _ m => m.getD 0
  | .folder _ _ _ kids => if kids.isEmpty then 0 else v2MtimeMax kids

/-- Math.max over the children's mtimes. -/
def v2MtimeMax : List Item → Nat
  | [] => 0
  | i :: r => Nat.max (v2Mtime i) (v2MtimeMax r)

end

/-- V2 TrashManager.purgeOlderThan: only top-level entries are examined,
an entry strictly older than the cutoff is deleted and filtered out; the
count of removed entries is returned (deletes modelled as succeeding). -/
def v2Purge (now days : Nat) (items : List Item) : Nat × List Item :=
  let cutoff := now - days * msPerDay
  ((items.filter (fun i => v2Mtime i < cutoff)).length,
   items.filter (fun i => ¬ (v2Mtime i < cutoff)))

/-- The for-loop of V2 empty: delete every top-level item (each delete has
its own catch). -/
def v2DeleteAll : List Item → S → S
  | [], s => s
  | i :: rest, s => v2DeleteAll rest (v2Delete i s).2

/-- V2 TrashManager.empty: best-effort delete of every item, then clear. -/
def v2Empty (items : List Item) (s : S) : S × List Item :=
  (v2DeleteAll items s, [])

/-- V1 TrashManager.empty: probe the trash folder and remove it recursively
when present, then clear the children; the existence probe happens whether
or not the in-memory tree is empty, and its error would propagate before
the children are cleared. -/
def v1Empty (items : List Item) (s : S) : Except String Unit × (S × List Item) :=
  match opExists ".trash" s with
  | (.error e, s) => (.error e, (s, items))
  | (.ok true, s) =>
    (match opRmdir ".trash" true s with
     | (.error e, s) => (.error e, (s, items))
     | (.ok _, s) => (.ok (), (s, [])))
  | (.ok false, s) => (.ok (), (s, []))

-- ============================================================
-- The backing disk, as observed through list/stat during a refresh
-- ============================================================

/-- A file as returned by a directory listing: its name and the outcome of
the stat call on it (the stat may raise, or report no metadata). -/
structure FileEnt where
  name : String
  statR : Except String (Option StatV)

/-- A directory of the backing store as refresh traverses it: the outcome
of the stat call on the directory itself, the outcome of listing it, and
its single-level contents (files and named subdirectories). -/
inductive DTree where
  | node (statR : Except String (Option StatV)) (listR : Except String Unit)
      (files : List FileEnt) (subdirs : List (String × DTree))

def DTree.statR : DTree → Except String (Option StatV)
  | .node st _ _ _ => st

def DTree.listR : DTree → Except String Unit
  | .node _ l _ _ => l

def DTree.files : DTree → List FileEnt
  | .node _ _ fs _ => fs

def DTree.subdirs : DTree → List (String × DTree)
  | .node _ _ _ sd => sd

/-- The comparator applied by V1 buildItems to the listed folder paths. -/
def dirRel (pre : String) (a b : String × DTree) : Prop :=
  nameLE (joinPath pre a.1) (joinPath pre b.1)

/-- The comparator applied by V1 buildItems to the listed file paths. -/
def fileRel (pre : String) (a b : FileEnt) : Prop :=
  nameLE (joinPath pre a.name) (joinPath pre b.name)

instance (pre : String) : DecidableRel (dirRel pre) :=
  fun a b => by unfold dirRel; infer_instance

instance (pre : String) : DecidableRel (fileRel pre) :=
  fun a b => by unfold fileRel; infer_instance

/-- The file half of V1 buildItems: stat each listed file in sorted order
and construct the entry; a stat error propagates. -/
def v1FilesE (pre : String) : List FileEnt → Except String (List Item)
  | [] => .ok []
  | f :: rest =>
    match f.statR with
    | .error e => .error e
    | .ok st =>
      match v1FilesE pre rest with
      | .error e => .error e
      | .ok items =>
        .ok (Item.file (joinPath pre f.name) (basename (joinPath pre f.name))
              (sizeOfStat st) (mtimeOf st) :: items)

mutual

/-- V1 list of a directory followed by buildItems on the listing: sorted
folders first (stat, recursive listing, construct), then sorted files;
any stat or list error propagates to the caller of refresh. -/
def v1BuildE (pre : String) (t : DTree) : Except String (List Item) :=
  match t.listR with
  | .error e => .error e
  | .ok _ =>
    match v1FoldersE pre (List.insertionSort (dirRel pre) t.subdirs) with
    | .error e => .error e
    | .ok folderItems =>
      match v1FilesE pre (List.insertionSort (fileRel pre) t.files) with
      | .error e => .error e
      | .ok fileItems => .ok (folderItems ++ fileItems)
termination_by sizeOf t
decreasing_by
  simp_wf
  have hp : sizeOf (List.insertionSort (dirRel pre) t.subdirs) = sizeOf t.subdirs :=
    (List.perm_insertionSort (dirRel pre) t.subdirs).sizeOf_eq_sizeOf
  have hs : sizeOf t.subdirs < sizeOf t := by
    cases t; simp [DTree.subdirs]
  omega

/-- The folder half of V1 buildItems over the already-sorted listing. -/
def v1FoldersE (pre : String) (l : List (String × DTree)) : Except String (List Item) :=
  match l with
  | [] => .ok []
  | x :: rest =>
    match x.2.statR with
    | .error e => .error e
    | .ok st =>
      match v1BuildE (joinPath pre x.1) x.2 with
      | .error e => .error e
      | .ok kids =>
        match v1FoldersE pre rest with
        | .error e => .error e
        | .ok items =>
          .ok (Item.folder (joinPath pre x.1) (basename (joinPath pre x.1))
                (mtimeOf st) kids :: items)
termination_by sizeOf l
decreasing_by
  all_goals simp_wf
  all_goals try (have h1 : sizeOf x.2 < sizeOf x := by cases x; simp)
  all_goals simp
  all_goals omega

end

/-- V1 TrashManager.refresh: probe the trash root, list and build when it
exists, clear when it does not; the children are reassigned only after the
whole build succeeded, so an error leaves the previous tree in place while
propagating to the caller. -/
def v1Refresh (exR : Except String Bool) (t : DTree) (cur : List Item) :
    Except String Unit × List Item :=
  match exR with
  | .error e => (.error e, cur)
  | .ok false => (.ok (), [])
  | .ok true =>
    match v1BuildE ".trash" t with
    | .error e => (.error e, cur)
    | .ok l => (.ok (), l)

-- ============================================================
-- V2 refresh (scanFolder) and DTree side conditions
-- ============================================================

/-- V2 entry name: path.split on "/" then pop. -/
def v2Name (p : String) : String := (pathSegs p).getLast?.getD ""

/-- The file loop of V2 scanFolder: each listed file is statted and pushed;
a stat error raises, which the catch of this scanFolder level turns into
keeping only the files pushed so far (the Bool reports the abort, which
also skips the folder loop of the same level). -/
def v2Files (pre : String) : List FileEnt → List Item × Bool
  | [] => ([], false)
  | f :: rest =>
    match f.statR with
    | .error _ => ([], true)
    | .ok st =>
      let r := v2Files pre rest
      (Item.file (joinPath pre f.name) (v2Name (joinPath pre f.name))
         (sizeOfStat st) (mtimeOf st) :: r.1, r.2)

/-- V2 scanFolder: list the directory (a listing error is caught, yielding
nothing at this level), push the files in listing order, then the folders
in listing order (skipping a listing of the trash root itself), each folder
scanned recursively; folders carry no stat in this variant. -/
def v2ScanE (pre : String) (t : DTree) : List Item :=
  match t.listR with
  | .error _ => []
  | .ok _ =>
    let fr := v2Files pre t.files
    if fr.2 then fr.1
    else
      fr.1 ++ (t.subdirs.filter (fun x => joinPath pre x.1 ≠ ".trash")).attach.map
        (fun x => Item.folder (joinPath pre x.1.1) (v2Name (joinPath pre x.1.1)) none
          (v2ScanE (joinPath pre x.1.1) x.1.2))
termination_by sizeOf t
decreasing_by
  simp_wf
  have h1 : x.1 ∈ t.subdirs := List.mem_of_mem_filter x.2
  have h2 : sizeOf x.1 < sizeOf t.subdirs := List.sizeOf_lt_of_mem h1
  have h3 : sizeOf x.1.2 < sizeOf x.1 := by cases x.1; simp
  have h4 : sizeOf t.subdirs < sizeOf t := by cases t; simp [DTree.subdirs]
  omega

/-- V2 TrashManager.refresh: the item list is cleared first, then the trash
root existence is probed (an error there propagates, leaving the cleared
list), then scanFolder rebuilds the list, catching its own errors. -/
def v2Refresh (exR : Except String Bool) (t : DTree) :
    Except String Unit × List Item :=
  match exR with
  | .error e => (.error e, [])
  | .ok false => (.ok (), [])
  | .ok true => (.ok (), v2ScanE ".trash" t)

/-- A listed name that is a single, non-empty path segment. -/
def nameOK (n : String) : Bool := (n ≠ "") && n.toList.all (fun c => c ≠ '/')

/-- All names of the disk tree are proper segments. -/
def validNames (t : DTree) : Bool :=
  t.files.all (fun f => nameOK f.name) &&
  t.subdirs.all (fun x => nameOK x.1) &&
  t.subdirs.attach.all (fun x => validNames x.1.2)
termination_by sizeOf t
decreasing_by
  simp_wf
  have h2 : sizeOf x.1 < sizeOf t.subdirs := List.sizeOf_lt_of_mem x.2
  have h3 : sizeOf x.1.2 < sizeOf x.1 := by cases x.1; simp
  have h4 : sizeOf t.subdirs < sizeOf t := by cases t; simp [DTree.subdirs]
  omega

/-- No stat or list call of the disk tree raises. -/
def noFail (t : DTree) : Bool :=
  isOkE t.listR && t.files.all (fun f => isOkE f.statR) &&
  t.subdirs.attach.all (fun x => isOkE x.1.2.statR && noFail x.1.2)
termination_by sizeOf t
decreasing_by
  simp_wf
  have h2 : sizeOf x.1 < sizeOf t.subdirs := List.sizeOf_lt_of_mem x.2
  have h3 : sizeOf x.1.2 < sizeOf x.1 := by cases x.1; simp
  have h4 : sizeOf t.subdirs < sizeOf t := by cases t; simp [DTree.subdirs]
  omega

-- ============================================================
-- The deterministic-ordering property of a built tree
-- ============================================================

/-- Adjacent-pairs sortedness of a name list under the collator. -/
def chainLE : List String → Bool
  | [] => true
  | [_] => true
  | a :: b :: r => collLEb a b && chainLE (b :: r)

/-- The children of an item (empty for a file). -/
def childListOf : Item → List Item
  | .file _ _ _ _ => []
  | .folder _ _ _ kids => kids

/-- One level is well formed: every folder precedes every file, and each of
the two groups is name-sorted under the collator. -/
def levelShape (l : List Item) : Bool :=
  (l.dropWhile isFolderB).all (fun i => !isFolderB i) &&
  chainLE ((l.takeWhile isFolderB).map Item.nameF) &&
  chainLE ((l.dropWhile isFolderB).map Item.nameF)

/-- Every level of the forest is well formed, recursively. -/
def levelOrdered (l : List Item) : Bool :=
  levelShape l && l.attach.all (fun x => levelOrdered (childListOf x.1))
termination_by sizeOf l
decreasing_by
  simp_wf
  have h2 : sizeOf x.1 < sizeOf l := List.sizeOf_lt_of_mem x.2
  have h3 : sizeOf (childListOf x.1) ≤ sizeOf x.1 := by
    cases x.1 <;> simp [childListOf]; omega
  omega

/-- The tree a successful refresh assigned (the empty forest otherwise). -/
def exceptD (r : Except String (List Item)) : List Item :=
  match r with
  | .ok l => l
  | .error _ => []

-- ============================================================
-- Concrete stores and trees used by witnesses and counterexamples
-- ============================================================

/-- Store in which the restore destination "x" already exists as a
directory, alongside the trash source directory. -/
def stgOverwrite : Stg := { files := [], dirs := ["x", ".trash/x"], failing := [] }

def sOverwrite : S := { stg := stgOverwrite, log := [] }

/-- The trashed folder whose original location is the existing "x". -/
def folderX : Item := Item.folder ".trash/x" "x" none []

/-- Store holding a trashed file whose original path escapes the store. -/
def stgTraversal : Stg := { files := [(".trash/../x", "hi")], dirs := [], failing := [] }

def sTraversal : S := { stg := stgTraversal, log := [] }

/-- Store whose remove call on the trashed file raises. -/
def stgFailRemove : Stg :=
  { files := [(".trash/x", "a")], dirs := [], failing := [Call.remove ".trash/x"] }

def sFailRemove : S := { stg := stgFailRemove, log := [] }

/-- Store in which the trash directory exists on disk with one file. -/
def stgTrashOnDisk : Stg := { files := [(".trash/a", "c")], dirs := [".trash"], failing := [] }

def sTrashOnDisk : S := { stg := stgTrashOnDisk, log := [] }

/-- A trashed file with no recorded mtime. -/
def fileAbsent : Item := Item.file ".trash/p" "p" 1 none

/-- A 90-day-old file inside a folder that also holds a 5-day-old file
(taking now to be day 100). -/
def oldFile : Item := Item.file ".trash/f/old" "old" 1 (some (10 * msPerDay))

def newFile : Item := Item.file ".trash/f/new" "new" 1 (some (95 * msPerDay))

def mixedFolder : Item := Item.folder ".trash/f" "f" none [oldFile, newFile]

/-- An empty directory of the backing disk. -/
def dEmpty : DTree := DTree.node (.ok none) (.ok ()) [] []

/-- A listing holding one file "b" and one directory "a". -/
def dUnsorted : DTree := DTree.node (.ok none) (.ok ()) [⟨"b", .ok none⟩] [("a", dEmpty)]

/-- A trash root whose listing raises. -/
def dListFails : DTree := DTree.node (.ok none) (.error "list raised") [] []

/-- Some pre-refresh tree content. -/
def someItem : Item := Item.file ".trash/one" "one" 0 none

/-- A well-behaved listing with unsorted names in both groups. -/
def dWitness : DTree := DTree.node (.ok none) (.ok ())
  [⟨"b.txt", .ok (some ⟨3, 5⟩)⟩, ⟨"A.txt", .ok none⟩]
  [("zz", dEmpty), ("aa", dEmpty)]

-- ============================================================
-- Helper lemmas
-- ============================================================

theorem aux_fileSizesSum_append (a b : List Item) :
    fileSizesSum (a ++ b) = fileSizesSum a + fileSizesSum b := by
  induction a with
  | nil => simp [fileSizesSum]
  | cons i r ih => cases i <;> simp [fileSizesSum, ih]; omega

theorem aux_size_flatten (l : List Item) : sizeList l = fileSizesSum (v1Flatten l) := by
  match l with
  | [] => simp [sizeList, v1Flatten, fileSizesSum]
  | .file p n sz m :: rest =>
    have hr := aux_size_flatten rest
    simp [sizeList, v1Flatten, fileSizesSum, Item.sizeF, hr]
  | .folder p n m kids :: rest =>
    have hr := aux_size_flatten rest
    have hk := aux_size_flatten kids
    simp [sizeList, v1Flatten, fileSizesSum, Item.sizeF, hr, hk,
      aux_fileSizesSum_append]
termination_by sizeOf l

theorem aux_count_eq_flatten_len (l : List Item) :
    v1CountItems l = (v1Flatten l).length := by
  match l with
  | [] => simp [v1CountItems, v1Flatten]
  | .file p n sz m :: rest =>
    have hr := aux_count_eq_flatten_len rest
    simp [v1CountItems, v1Flatten, hr]
    omega
  | .folder p n m kids :: rest =>
    have hr := aux_count_eq_flatten_len rest
    have hk := aux_count_eq_flatten_len kids
    simp [v1CountItems, v1Flatten, hr, hk]
    omega
termination_by sizeOf l

-- ============================================================
-- Claim C9: size aggregation
-- ============================================================

/-- C9.  Size aggregation: a FolderEntry's size is the recursive sum of the
sizes of all its descendant file entries, an empty folder has size 0, and
the manager's totalSize is the root folder's derived size. -/
theorem size_aggregation :
    (∀ (p n : String) (m : Option Nat) (kids : List Item),
      (Item.folder p n m kids).sizeF = fileSizesSum (v1Flatten kids)) ∧
    (∀ (p n : String) (m : Option Nat), (Item.folder p n m []).sizeF = 0) ∧
    (∀ items : List Item, v1TotalSize items = sizeList items) := by
  refine ⟨fun p n m kids => ?_, fun p n m => ?_, fun items => rfl⟩
  · simp [Item.sizeF, aux_size_flatten]
  · simp [Item.sizeF, sizeList]

-- ============================================================
-- Claim C10: count, flatten and emptiness agree
-- ============================================================

/-- C10.  The recursive node count equals the length of the flattened
pre-order list, and the tree is empty exactly when the count is zero
(both queries are pure functions of the tree). -/
theorem count_flatten_empty_agree :
    ∀ items : List Item,
      v1CountItems items = (v1Flatten items).length ∧
      (v1IsEmpty items = true ↔ v1CountItems items = 0) := by
  intro items
  refine ⟨aux_count_eq_flatten_len items, ?_⟩
  cases items with
  | nil => simp [v1IsEmpty, v1CountItems]
  | cons i rest =>
    cases i <;> simp [v1IsEmpty, v1CountItems]

-- ============================================================
-- Purge helper lemmas
-- ============================================================

theorem aux_count_append (a b : List Item) :
    v1CountItems (a ++ b) = v1CountItems a + v1CountItems b := by
  induction a with
  | nil => simp [v1CountItems]
  | cons i r ih => cases i <;> simp [v1CountItems, ih] <;> omega

theorem aux_find_old (now days : Nat) (l : List Item) :
    ∀ i ∈ v1Find now days l, days ≤ daysSince now i.mtimeF := by
  match l with
  | [] => simp [v1Find]
  | j :: rest =>
    have hr := aux_find_old now days rest
    intro i hi
    cases j with
    | file p n sz m =>
      simp only [v1Find] at hi
      by_cases hold : days ≤ daysSince now (Item.file p n sz m).mtimeF
      · simp [hold] at hi
        rcases hi with hi | hi
        · exact hi ▸ hold
        · exact hr i hi
      · simp [hold] at hi
        exact hr i hi
    | folder p n m kids =>
      have hk := aux_find_old now days kids
      simp only [v1Find] at hi
      by_cases hold : days ≤ daysSince now (Item.folder p n m kids).mtimeF
      · simp [hold] at hi
        rcases hi with hi | hi
        · exact hi ▸ hold
        · exact hr i hi
      · simp [hold] at hi
        rcases hi with hi | hi
        · exact hk i hi
        · exact hr i hi
termination_by sizeOf l

theorem aux_purged_young (now days : Nat) (l : List Item) :
    ∀ j ∈ v1Flatten (v1PurgeTree now days l), daysSince now j.mtimeF < days := by
  match l with
  | [] => simp [v1PurgeTree, v1Flatten]
  | i :: rest =>
    have hr := aux_purged_young now days rest
    intro j hj
    cases i with
    | file p n sz m =>
      simp only [v1PurgeTree] at hj
      by_cases hold : days ≤ daysSince now (Item.file p n sz m).mtimeF
      · simp [hold] at hj
        exact hr j hj
      · simp only [if_neg hold] at hj
        simp only [v1Flatten] at hj
        simp at hj
        rcases hj with hj | hj
        · subst hj; simpa using Nat.lt_of_not_le hold
        · exact hr j hj
    | folder p n m kids =>
      have hk := aux_purged_young now days kids
      simp only [v1PurgeTree] at hj
      by_cases hold : days ≤ daysSince now (Item.folder p n m kids).mtimeF
      · simp [hold] at hj
        exact hr j hj
      · simp only [if_neg hold] at hj
        simp only [v1Flatten] at hj
        simp at hj
        rcases hj with hj | hj | hj
        · subst hj; simpa [Item.mtimeF] using Nat.lt_of_not_le hold
        · exact hk j hj
        · exact hr j hj
termination_by sizeOf l

theorem aux_purge_conservation (now days : Nat) (l : List Item) :
    v1CountItems l =
      v1CountItems (v1PurgeTree now days l) + v1CountItems (v1Find now days l) := by
  match l with
  | [] => simp [v1CountItems, v1PurgeTree, v1Find]
  | i :: rest =>
    have hr := aux_purge_conservation now days rest
    cases i with
    | file p n sz m =>
      simp only [v1PurgeTree, v1Find]
      by_cases hold : days ≤ daysSince now (Item.file p n sz m).mtimeF
      · simp [hold, v1CountItems, hr]
        omega
      · simp [hold, v1CountItems, hr]
        omega
    | folder p n m kids =>
      have hk := aux_purge_conservation now days kids
      simp only [v1PurgeTree, v1Find]
      by_cases hold : days ≤ daysSince now (Item.folder p n m kids).mtimeF
      · simp [hold, v1CountItems, hr]
        omega
      · simp [hold, v1CountItems, hr, hk, aux_count_append]
        omega
termination_by sizeOf l

theorem aux_find_absent (now days : Nat) (hd : 1 ≤ days) (l : List Item) :
    ∀ i ∈ v1Find now days l, i.mtimeF ≠ none := by
  match l with
  | [] => simp [v1Find]
  | j :: rest =>
    have hr := aux_find_absent now days hd rest
    intro i hi
    cases j with
    | file p n sz m =>
      simp only [v1Find] at hi
      by_cases hold : days ≤ daysSince now (Item.file p n sz m).mtimeF
      · simp [hold] at hi
        rcases hi with hi | hi
        · subst hi
          intro hnone
          simp only [Item.mtimeF] at hnone
          rw [Item.mtimeF, hnone] at hold
          simp [daysSince] at hold
          omega
        · exact hr i hi
      · simp [hold] at hi
        exact hr i hi
    | folder p n m kids =>
      have hk := aux_find_absent now days hd kids
      simp only [v1Find] at hi
      by_cases hold : days ≤ daysSince now (Item.folder p n m kids).mtimeF
      · simp [hold] at hi
        rcases hi with hi | hi
        · subst hi
          intro hnone
          simp only [Item.mtimeF] at hnone
          rw [Item.mtimeF, hnone] at hold
          simp [daysSince] at hold
          omega
        · exact hr i hi
      · simp [hold] at hi
        rcases hi with hi | hi
        · exact hk i hi
        · exact hr i hi
termination_by sizeOf l

-- ============================================================
-- Claim C4: folder-level purge policy (amended to the root variant)
-- ============================================================

/-- C4 (amended to the root variant V1; the src variant examines only
top-level entries and never recurses).  V1 purgeOlderThan returns the
length of the list of directly-purged entries and removes exactly those
subtrees: everything purged is at least days old, everything still in the
tree afterwards is younger than days, and the node count of the original
tree splits exactly into the surviving tree plus the purged subtrees, so a
purged folder is one purge unit and its descendants are neither re-purged
nor counted again. -/
theorem purge_policy_amended :
    ∀ (now days : Nat) (items : List Item),
      (v1PurgeOlderThan now days items).1 = (v1Find now days items).length ∧
      (v1PurgeOlderThan now days items).2 = v1PurgeTree now days items ∧
      (∀ i ∈ v1Find now days items, days ≤ daysSince now i.mtimeF) ∧
      (∀ j ∈ v1Flatten (v1PurgeTree now days items), daysSince now j.mtimeF < days) ∧
      v1CountItems items =
        v1CountItems (v1PurgeTree now days items) + v1CountItems (v1Find now days items) :=
  fun now days items =>
    ⟨rfl, rfl, aux_find_old now days items, aux_purged_young now days items,
     aux_purge_conservation now days items⟩

/-- Witness for C4 at a concrete tree: a young folder holding a 90-day-old
and a 5-day-old file, threshold 30 days, now = day 100. -/
theorem purge_policy_amended_witness :
    30 ≤ daysSince (100 * msPerDay) oldFile.mtimeF ∧
    daysSince (100 * msPerDay) newFile.mtimeF < 30 ∧
    v1CountItems [mixedFolder] =
      v1CountItems (v1PurgeTree (100 * msPerDay) 30 [mixedFolder]) +
      v1CountItems (v1Find (100 * msPerDay) 30 [mixedFolder]) := by
  obtain ⟨h1, h2, h3, h4, h5⟩ := purge_policy_amended (100 * msPerDay) 30 [mixedFolder]
  refine ⟨h3 oldFile ?_, h4 newFile ?_, h5⟩
  · simp [v1Find, mixedFolder, oldFile, newFile, daysSince, Item.mtimeF, msPerDay]
  · simp [v1PurgeTree, v1Flatten, mixedFolder, oldFile, newFile, daysSince,
      Item.mtimeF, msPerDay]

/-- Counterexample to C4 as stated: in the src variant the purge never
recurses, so the 90-day-old file nested inside a folder whose derived
mtime is young survives a 30-day purge and the returned count is 0. -/
theorem v2_purge_ignores_nested :
    v2Purge (100 * msPerDay) 30 [mixedFolder] = (0, [mixedFolder]) ∧
    30 ≤ daysSince (100 * msPerDay) oldFile.mtimeF ∧
    oldFile ∈ v1Flatten [mixedFolder] := by
  refine ⟨?_, ?_, ?_⟩
  · simp [v2Purge, v2Mtime, v2MtimeMax, mixedFolder, oldFile, newFile, msPerDay]
  · simp [daysSince, oldFile, Item.mtimeF, msPerDay]
  · simp [v1Flatten, mixedFolder, oldFile, newFile]

-- ============================================================
-- Claim C5: absent mtime and the purge threshold
-- ============================================================

/-- C5 (amended to the root variant V1 and to thresholds of at least one
day; at threshold 0 the age-0 entry satisfies 0 >= 0 and is purged, and
the src variant treats an absent mtime as epoch 0 and purges it).  An
absent mtime is treated as age 0, and for every threshold of at least one
day no entry of the purge list has an absent mtime. -/
theorem absent_mtime_amended :
    (∀ now : Nat, daysSince now none = 0) ∧
    (∀ (now days : Nat) (items : List Item) (i : Item),
      1 ≤ days → i ∈ v1Find now days items → i.mtimeF ≠ none) :=
  ⟨fun _ => rfl, fun now days items i hd hi => aux_find_absent now days hd items i hi⟩

/-- Witness for C5: the concrete 30-day purge of the mixed folder keeps
absent-mtime entries out of the purge list. -/
theorem absent_mtime_amended_witness :
    daysSince 7 none = 0 ∧
    oldFile ∈ v1Find (100 * msPerDay) 30 [mixedFolder] ∧
    oldFile.mtimeF ≠ none := by
  obtain ⟨h0, h1⟩ := absent_mtime_amended
  have hm : oldFile ∈ v1Find (100 * msPerDay) 30 [mixedFolder] := by
    simp [v1Find, mixedFolder, oldFile, newFile, daysSince, Item.mtimeF, msPerDay]
  exact ⟨h0 7, hm, h1 (100 * msPerDay) 30 [mixedFolder] oldFile (by norm_num) hm⟩

/-- Counterexample to C5 as stated: at threshold 0 the absent-mtime file is
in the purge list and purgeOlderThan deletes it and counts it. -/
theorem absent_mtime_purged_at_zero :
    v1Find 1000 0 [fileAbsent] = [fileAbsent] ∧
    v1PurgeOlderThan 1000 0 [fileAbsent] = (1, []) ∧
    fileAbsent.mtimeF = none := by
  refine ⟨?_, ?_, rfl⟩
  · simp [v1Find, fileAbsent, daysSince, Item.mtimeF]
  · simp [v1PurgeOlderThan, v1Find, v1PurgeTree, fileAbsent, daysSince, Item.mtimeF]

-- ============================================================
-- Claim C1: no overwrite on restore
-- ============================================================

/-- C1 (amended: holds for V1 files, V1 folders and V2 files; a V2
folder's restore performs no existence check and instead recreates the
destination directory, restores the children into it and removes the
trash source, returning success).  When the restore destination already
exists, restore returns the failure result after the single existence
probe, the store is untouched, and the entry stays in the tree (V1
detaches only on the success path; V2 never detaches). -/
theorem restore_no_overwrite_amended :
    (∀ (s : S) (p : String),
      pathExists s.stg (v1OriginalPath p) = true →
      Call.exi (v1OriginalPath p) ∉ s.stg.failing →
      v1FileRestore p s = (.ok false, logC (.exi (v1OriginalPath p)) s)) ∧
    (∀ (s : S) (p : String),
      pathExists s.stg (v1OriginalPath p) = true →
      Call.exi (v1OriginalPath p) ∉ s.stg.failing →
      v1FolderRestore p s = (.ok false, logC (.exi (v1OriginalPath p)) s)) ∧
    (∀ (s : S) (p : String),
      pathExists s.stg (v2OriginalPath p) = true →
      Call.exi (v2OriginalPath p) ∉ s.stg.failing →
      (v2FileRestore p s).1 = .ok false ∧ ((v2FileRestore p s).2).stg = s.stg) := by
  refine ⟨?_, ?_, ?_⟩
  · intro s p hex hnf
    have h1 : failsOn { stg := s.stg, log := s.log ++ [Call.exi (v1OriginalPath p)] }
        (Call.exi (v1OriginalPath p)) = false := by
      simp [failsOn, hnf]
    simp [v1FileRestore, opExists, logC, h1, hex]
  · intro s p hex hnf
    have h1 : failsOn { stg := s.stg, log := s.log ++ [Call.exi (v1OriginalPath p)] }
        (Call.exi (v1OriginalPath p)) = false := by
      simp [failsOn, hnf]
    simp [v1FolderRestore, opExists, logC, h1, hex]
  · intro s p hex hnf
    by_cases hv : isValidPath (v2OriginalPath p)
    · have h1 : failsOn { stg := s.stg, log := s.log ++ [Call.exi (v2OriginalPath p)] }
          (Call.exi (v2OriginalPath p)) = false := by
        simp [failsOn, hnf]
      simp [v2FileRestore, v2FileRestoreBody, hv, opExists, logC, h1, hex, catchFalse]
    · simp [v2FileRestore, v2FileRestoreBody, hv, catchFalse]

/-- Witness for C1: restoring ".trash/x" while "x" exists in the store
returns failure and leaves the store unchanged, in all three cases. -/
theorem restore_no_overwrite_amended_witness :
    pathExists sOverwrite.stg (v1OriginalPath ".trash/x") = true ∧
    v1FileRestore ".trash/x" sOverwrite =
      (.ok false, logC (.exi (v1OriginalPath ".trash/x")) sOverwrite) ∧
    v1FolderRestore ".trash/x" sOverwrite =
      (.ok false, logC (.exi (v1OriginalPath ".trash/x")) sOverwrite) ∧
    (v2FileRestore ".trash/x" sOverwrite).1 = .ok false ∧
    (v2FileRestore ".trash/x" sOverwrite).2.stg = sOverwrite.stg := by
  obtain ⟨h1, h2, h3⟩ := restore_no_overwrite_amended
  have hex : pathExists sOverwrite.stg (v1OriginalPath ".trash/x") = true := by decide
  have hnf : Call.exi (v1OriginalPath ".trash/x") ∉ sOverwrite.stg.failing := by decide
  have hex2 : pathExists sOverwrite.stg (v2OriginalPath ".trash/x") = true := by decide
  have hnf2 : Call.exi (v2OriginalPath ".trash/x") ∉ sOverwrite.stg.failing := by decide
  exact ⟨hex, h1 sOverwrite ".trash/x" hex hnf, h2 sOverwrite ".trash/x" hex hnf,
    (h3 sOverwrite ".trash/x" hex2 hnf2).1, (h3 sOverwrite ".trash/x" hex2 hnf2).2⟩

/-- Counterexample to C1 as stated: the V2 folder restore of ".trash/x"
with destination "x" already a directory of the store succeeds and
mutates storage (the trash source directory is removed). -/
theorem v2_folder_restore_overwrites :
    pathExists sOverwrite.stg (v2OriginalPath folderX.path) = true ∧
    (v2Restore folderX sOverwrite).1 = .ok true ∧
    (v2Restore folderX sOverwrite).2.stg ≠ sOverwrite.stg := by
  have e : v2Restore folderX sOverwrite = catchFalse (v2FolderBody ".trash/x" [] sOverwrite) := by
    simp [v2Restore, folderX]
  refine ⟨by decide, ?_, ?_⟩
  · rw [e]
    simp only [v2FolderBody, v2RestoreList]
    rfl
  · rw [e]
    simp only [v2FolderBody, v2RestoreList]
    decide

-- ============================================================
-- Claim C2: path safety on restore
-- ============================================================

theorem aux_unsafe_invalid (q : String)
    (h : strContains q ".." = true ∨ strStarts q "/" = true ∨
         strStarts q "\\" = true ∨ strContains q "://" = true) :
    isValidPath q = false := by
  unfold isValidPath
  rcases h with h | h | h | h <;> split_ifs <;> simp_all

/-- C2 (amended to the src variant V2; the V1 restore performs no
validation at all).  For an entry whose originalPath contains "..",
starts with a slash or backslash, or embeds "://", the V2 restore of a
file or a folder returns failure with the state — store and call log —
completely unchanged: no storage call is made. -/
theorem restore_path_safety_amended :
    ∀ (s : S) (p : String),
      (strContains (v2OriginalPath p) ".." = true ∨
       strStarts (v2OriginalPath p) "/" = true ∨
       strStarts (v2OriginalPath p) "\\" = true ∨
       strContains (v2OriginalPath p) "://" = true) →
      v2FileRestore p s = (.ok false, s) ∧
      (∀ (n : String) (m : Option Nat) (kids : List Item),
        v2Restore (Item.folder p n m kids) s = (.ok false, s)) := by
  intro s p h
  have hv : isValidPath (v2OriginalPath p) = false := aux_unsafe_invalid _ h
  constructor
  · simp [v2FileRestore, v2FileRestoreBody, hv, catchFalse]
  · intro n m kids
    simp [v2Restore, v2FolderBody, hv, catchFalse]

/-- Witness for C2: restoring ".trash/../a" under V2 fails with no call. -/
theorem restore_path_safety_amended_witness :
    strContains (v2OriginalPath ".trash/../a") ".." = true ∧
    v2FileRestore ".trash/../a" sTraversal = (.ok false, sTraversal) ∧
    v2Restore (Item.folder ".trash/../a" "a" none []) sTraversal = (.ok false, sTraversal) := by
  have hc : strContains (v2OriginalPath ".trash/../a") ".." = true := by decide
  obtain ⟨h1, h2⟩ := restore_path_safety_amended sTraversal ".trash/../a" (Or.inl hc)
  exact ⟨hc, h1, h2 "a" none []⟩

/-- Counterexample to C2 as stated: the V1 restore of ".trash/../x",
whose originalPath "../x" contains "..", performs four storage calls
(exists, exists, mkdir, rename), mutates the store and returns success. -/
theorem v1_restore_no_validation :
    strContains (v1OriginalPath ".trash/../x") ".." = true ∧
    (v1FileRestore ".trash/../x" sTraversal).1 = .ok true ∧
    (v1FileRestore ".trash/../x" sTraversal).2.log =
      [Call.exi "../x", Call.exi "..", Call.mkdir "..",
       Call.rename ".trash/../x" "../x"] ∧
    (v1FileRestore ".trash/../x" sTraversal).2.stg ≠ sTraversal.stg :=
  ⟨by decide, by rfl, by rfl, by decide⟩

-- ============================================================
-- Claim C3: storage errors never escape
-- ============================================================

theorem aux_catchFalse_ok (r : Except String Bool × S) : isOkE (catchFalse r).1 = true := by
  rcases r with ⟨r, s⟩
  cases r <;> simp [catchFalse, isOkE]

/-- C3 (amended to the src variant V2; the V1 entry operations have no
try/catch and propagate adapter errors to the caller).  Whatever the
store and whichever adapter calls are designated to raise, a V2 restore
or delete of any entry never surfaces an error: the catch at each entry
converts it into the boolean failure result. -/
theorem storage_errors_caught_amended :
    ∀ (i : Item) (s : S),
      isOkE (v2Restore i s).1 = true ∧ isOkE (v2Delete i s).1 = true := by
  intro i s
  constructor
  · cases i with
    | file p n sz m =>
      simp only [v2Restore]
      exact aux_catchFalse_ok _
    | folder p n m kids =>
      simp only [v2Restore]
      exact aux_catchFalse_ok _
  · cases i with
    | file p n sz m =>
      simp only [v2Delete]
      rcases h : opRemove p s with ⟨r, s'⟩
      cases r <;> simp [isOkE]
    | folder p n m kids =>
      simp only [v2Delete]
      rcases h : opRmdir p true s with ⟨r, s'⟩
      cases r <;> simp [isOkE]

/-- Counterexample to C3 as stated: a raising remove makes the V1 file
delete surface the error to its caller unconverted. -/
theorem v1_delete_error_escapes :
    (v1FileDelete ".trash/x" sFailRemove).1 = Except.error "remove raised" := by rfl

-- ============================================================
-- Claim C8: idempotent empty
-- ============================================================

/-- C8 (amended to the src variant V2; the V1 empty always probes the
trash folder's existence and removes it from storage when present, even
for an empty tree).  A V2 empty of an already-empty tree performs no
storage call, leaves the store untouched and the tree empty. -/
theorem empty_idempotent_amended :
    ∀ s : S, (v2Empty [] s).1.log = s.log ∧ (v2Empty [] s).1.stg = s.stg ∧
      v1IsEmpty (v2Empty [] s).2 = true :=
  fun _ => ⟨rfl, rfl, rfl⟩

/-- Counterexample to C8 as stated: with an empty tree but the trash
directory present on disk, the V1 empty performs an exists call and a
recursive rmdir, mutating the store. -/
theorem v1_empty_probes_storage :
    v1IsEmpty [] = true ∧
    (v1Empty [] sTrashOnDisk).2.1.log = [Call.exi ".trash", Call.rmdir ".trash" true] ∧
    (v1Empty [] sTrashOnDisk).2.1.stg ≠ sTrashOnDisk.stg :=
  ⟨rfl, by decide, by decide⟩

-- ============================================================
-- Collator and listing-order helper lemmas
-- ============================================================

theorem aux_cmpN_self (a : Nat) : cmpN a a = .eq := by simp [cmpN]

theorem aux_cmpCL_cons (x y : Char) (xs ys : List Char) :
    cmpCL (x :: xs) (y :: ys) =
      if x.toLower.toNat < y.toLower.toNat then .lt
      else if x.toLower.toNat = y.toLower.toNat then cmpCL xs ys
      else .gt := by
  simp only [cmpCL, cmpN]
  split_ifs <;> rfl

theorem aux_cmpCL_swap (a b : List Char) : cmpCL b a = (cmpCL a b).swap := by
  induction a generalizing b with
  | nil => cases b <;> rfl
  | cons x xs ih =>
    cases b with
    | nil => rfl
    | cons y ys =>
      rw [aux_cmpCL_cons, aux_cmpCL_cons]
      split_ifs <;> first | rfl | (exfalso; omega) | (exact ih ys)

theorem aux_cmpCL_trans (a b c : List Char)
    (h1 : cmpCL a b ≠ .gt) (h2 : cmpCL b c ≠ .gt) : cmpCL a c ≠ .gt := by
  induction a generalizing b c with
  | nil => cases c <;> simp [cmpCL]
  | cons x xs ih =>
    cases b with
    | nil => simp [cmpCL] at h1
    | cons y ys =>
      cases c with
      | nil => simp [cmpCL] at h2
      | cons z zs =>
        rw [aux_cmpCL_cons] at h1 h2 ⊢
        split_ifs at h1 h2 ⊢ <;>
          first
          | (exact absurd rfl h1)
          | (exact absurd rfl h2)
          | (exfalso; omega)
          | (exact ih ys zs h1 h2)
          | decide

theorem aux_cmpCL_append (l a b : List Char) : cmpCL (l ++ a) (l ++ b) = cmpCL a b := by
  induction l with
  | nil => rfl
  | cons c cs ih =>
    simp only [List.cons_append]
    rw [aux_cmpCL_cons]
    simp [ih]

theorem aux_nameLE_iff (a b : String) : nameLE a b ↔ cmpCL a.toList b.toList ≠ .gt := by
  have h : collCmp a b = cmpCL a.toList b.toList := rfl
  unfold nameLE collLEb
  rw [h]
  generalize cmpCL a.toList b.toList = o
  cases o <;> decide

theorem aux_nameLE_total (a b : String) : nameLE a b ∨ nameLE b a := by
  rw [aux_nameLE_iff, aux_nameLE_iff]
  by_cases h : cmpCL a.toList b.toList = .gt
  · right
    rw [aux_cmpCL_swap, h]
    simp [Ordering.swap]
  · left
    exact h

theorem aux_nameLE_trans (a b c : String) (h1 : nameLE a b) (h2 : nameLE b c) :
    nameLE a c := by
  rw [aux_nameLE_iff] at h1 h2 ⊢
  exact aux_cmpCL_trans _ _ _ h1 h2

theorem aux_join_congr (pre a b : String) :
    nameLE (joinPath pre a) (joinPath pre b) ↔ nameLE a b := by
  rw [aux_nameLE_iff, aux_nameLE_iff]
  have hd : ∀ x : String, (joinPath pre x).toList = (pre ++ "/").toList ++ x.toList := by
    intro x
    simp [joinPath, String.toList]
  rw [hd a, hd b, aux_cmpCL_append]

theorem aux_sorted_insertionSort {α : Type} (r : α → α → Prop) [DecidableRel r]
    (htot : ∀ a b, r a b ∨ r b a) (htr : ∀ a b c, r a b → r b c → r a c) (l : List α) :
    List.Sorted r (List.insertionSort r l) :=
  @List.sorted_insertionSort α r _ ⟨htot⟩ ⟨htr⟩ l

theorem aux_chainLE_of_pairwise (l : List String) (h : List.Pairwise nameLE l) :
    chainLE l = true := by
  induction l with
  | nil => rfl
  | cons a t ih =>
    cases t with
    | nil => rfl
    | cons b u =>
      simp only [chainLE, Bool.and_eq_true]
      obtain ⟨hrel, htail⟩ := List.pairwise_cons.mp h
      exact ⟨hrel b (by simp), ih htail⟩

theorem aux_takeWhile_split (p : Item → Bool) (A B : List Item)
    (hA : ∀ a ∈ A, p a = true) (hB : ∀ b ∈ B, p b = false) :
    (A ++ B).takeWhile p = A ∧ (A ++ B).dropWhile p = B := by
  induction A with
  | nil =>
    simp only [List.nil_append]
    cases B with
    | nil => simp
    | cons b t =>
      rw [List.takeWhile_cons, List.dropWhile_cons]
      simp [hB b (by simp)]
  | cons a t ih =>
    have h2 := ih (fun x hx => hA x (by simp [hx]))
    simp only [List.cons_append, List.takeWhile_cons, List.dropWhile_cons, hA a (by simp)]
    simp [h2.1, h2.2]

theorem aux_takeWhile_all_stop (p : Char → Bool) (l1 : List Char) (c : Char) (l2 : List Char)
    (h1 : ∀ x ∈ l1, p x = true) (hc : p c = false) :
    (l1 ++ c :: l2).takeWhile p = l1 := by
  induction l1 with
  | nil =>
    rw [List.nil_append, List.takeWhile_cons]
    simp [hc]
  | cons a t ih =>
    rw [List.cons_append, List.takeWhile_cons]
    simp only [h1 a (by simp), if_true]
    simp [ih (fun x hx => h1 x (by simp [hx]))]

theorem aux_mk_toList (s : String) : String.mk s.toList = s := rfl

theorem aux_nameOK_parts (n : String) (h : nameOK n = true) :
    n.toList ≠ [] ∧ ∀ c ∈ n.toList, c ≠ '/' := by
  simp only [nameOK, Bool.and_eq_true, decide_eq_true_eq, List.all_eq_true] at h
  obtain ⟨h1, h2⟩ := h
  constructor
  · intro hnil
    apply h1
    cases n with
    | mk d =>
      simp only [String.toList] at hnil
      subst hnil
      rfl
  · intro c hc
    simpa using h2 c hc

theorem aux_basename_join (pre n : String) (hOK : nameOK n = true) :
    basename (joinPath pre n) = n := by
  obtain ⟨hne, hns⟩ := aux_nameOK_parts n hOK
  have hdata : (joinPath pre n).toList = pre.toList ++ '/' :: n.toList := by
    simp [joinPath, String.toList]
  have hlast : (joinPath pre n).toList.getLast? = n.toList.getLast? := by
    rw [hdata, List.append_cons]
    exact List.getLast?_append_of_ne_nil _ hne
  obtain ⟨c, hc⟩ : ∃ c, n.toList.getLast? = some c := by
    cases h : n.toList.getLast? with
    | none => exact absurd (List.getLast?_eq_none_iff.mp h) hne
    | some c => exact ⟨c, rfl⟩
  have hcmem : c ∈ n.toList := by
    obtain ⟨hh, rfl⟩ := List.mem_getLast?_eq_getLast (l := n.toList) (x := c) hc
    exact List.getLast_mem hh
  have hcslash : c ≠ '/' := hns c hcmem
  simp only [basename]
  rw [hlast, hc]
  have hcond : (some c = some '/') = False := by simp [hcslash]
  simp only [hcond, if_false]
  rw [hdata]
  have hrev : (pre.toList ++ '/' :: n.toList).reverse =
      n.toList.reverse ++ '/' :: pre.toList.reverse := by
    simp
  rw [hrev]
  rw [aux_takeWhile_all_stop (fun c => decide (c ≠ '/')) n.toList.reverse '/' pre.toList.reverse
    (by intro x hx; simp at hx ⊢; exact hns x hx) (by simp)]
  simp only [List.reverse_reverse]
  have : n.toList.isEmpty = false := by
    cases h : n.toList with
    | nil => exact absurd h hne
    | cons a t => rfl
  simp only [this, Bool.false_eq_true, if_false]
  exact aux_mk_toList n

theorem aux_filesE_map (pre : String) (l : List FileEnt)
    (h : ∀ f ∈ l, isOkE f.statR = true) :
    v1FilesE pre l = .ok (l.map (fun f =>
      Item.file (joinPath pre f.name) (basename (joinPath pre f.name))
        (sizeOfStat (exceptSV f.statR)) (mtimeOf (exceptSV f.statR)))) := by
  induction l with
  | nil => rfl
  | cons f t ih =>
    have hf := h f (by simp)
    obtain ⟨st, hst⟩ : ∃ st, f.statR = .ok st := by
      cases hr : f.statR with
      | ok v => exact ⟨v, rfl⟩
      | error e => rw [hr] at hf; simp [isOkE] at hf
    rw [v1FilesE, hst, ih (fun x hx => h x (by simp [hx]))]
    simp [exceptSV, hst]

theorem aux_levelOrdered_nil : levelOrdered [] = true := by
  rw [levelOrdered]
  simp [levelShape, chainLE]

theorem aux_levelOrdered_intro (l : List Item) (h1 : levelShape l = true)
    (h2 : ∀ i ∈ l, levelOrdered (childListOf i) = true) : levelOrdered l = true := by
  rw [levelOrdered]
  simp only [h1, Bool.true_and, List.all_eq_true]
  intro x _
  exact h2 x.1 x.2

theorem aux_noFail_parts (st : Except String (Option StatV)) (lr : Except String Unit)
    (fs : List FileEnt) (sd : List (String × DTree))
    (h : noFail (DTree.node st lr fs sd) = true) :
    isOkE lr = true ∧ (∀ f ∈ fs, isOkE f.statR = true) ∧
      (∀ x ∈ sd, isOkE x.2.statR = true ∧ noFail x.2 = true) := by
  rw [noFail] at h
  simp only [DTree.listR, DTree.files, DTree.subdirs, Bool.and_eq_true,
    List.all_eq_true] at h
  obtain ⟨⟨h1, h2⟩, h3⟩ := h
  refine ⟨h1, fun f hf => h2 f hf, fun x hx => ?_⟩
  have := h3 ⟨x, hx⟩ (List.mem_attach _ _)
  simpa [Bool.and_eq_true] using this

theorem aux_validNames_parts (st : Except String (Option StatV)) (lr : Except String Unit)
    (fs : List FileEnt) (sd : List (String × DTree))
    (h : validNames (DTree.node st lr fs sd) = true) :
    (∀ f ∈ fs, nameOK f.name = true) ∧ (∀ x ∈ sd, nameOK x.1 = true) ∧
      (∀ x ∈ sd, validNames x.2 = true) := by
  rw [validNames] at h
  simp only [DTree.files, DTree.subdirs, Bool.and_eq_true, List.all_eq_true] at h
  obtain ⟨⟨h1, h2⟩, h3⟩ := h
  exact ⟨fun f hf => h1 f hf, fun x hx => h2 x hx,
    fun x hx => h3 ⟨x, hx⟩ (List.mem_attach _ _)⟩

mutual

theorem aux_build_ordered (pre : String) (t : DTree)
    (hnf : noFail t = true) (hvn : validNames t = true) :
    ∃ l, v1BuildE pre t = .ok l ∧ levelOrdered l = true := by
  match t with
  | .node st lr fs sd =>
    obtain ⟨hlr, hfs, hsd⟩ := aux_noFail_parts st lr fs sd hnf
    obtain ⟨hvf, hvd, hvr⟩ := aux_validNames_parts st lr fs sd hvn
    obtain ⟨u, hu⟩ : ∃ u, lr = .ok u := by
      cases hq : lr with
      | ok v => exact ⟨v, rfl⟩
      | error e => rw [hq] at hlr; simp [isOkE] at hlr
    have hmemd : ∀ x ∈ List.insertionSort (dirRel pre) sd, x ∈ sd := by
      intro x hx
      exact (List.mem_insertionSort (dirRel pre)).mp hx
    have hmemf : ∀ x ∈ List.insertionSort (fileRel pre) fs, x ∈ fs := by
      intro x hx
      exact (List.mem_insertionSort (fileRel pre)).mp hx
    obtain ⟨fItems, hF, hNames, hAllF, hKids⟩ :=
      aux_folders_ordered pre (List.insertionSort (dirRel pre) sd) (fun x hx =>
        ⟨(hsd x (hmemd x hx)).1, (hsd x (hmemd x hx)).2, hvr x (hmemd x hx)⟩)
    have hFile := aux_filesE_map pre (List.insertionSort (fileRel pre) fs)
      (fun f hf => hfs f (hmemf f hf))
    refine ⟨fItems ++ (List.insertionSort (fileRel pre) fs).map (fun f =>
      Item.file (joinPath pre f.name) (basename (joinPath pre f.name))
        (sizeOfStat (exceptSV f.statR)) (mtimeOf (exceptSV f.statR))), ?_, ?_⟩
    · rw [v1BuildE]
      simp only [DTree.listR, DTree.files, DTree.subdirs, hu, hF, hFile]
    · -- ordering of this level
      have hFileNotF : ∀ i ∈ (List.insertionSort (fileRel pre) fs).map (fun f =>
          Item.file (joinPath pre f.name) (basename (joinPath pre f.name))
            (sizeOfStat (exceptSV f.statR)) (mtimeOf (exceptSV f.statR))),
          isFolderB i = false := by
        intro i hi
        obtain ⟨f, _, rfl⟩ := List.mem_map.mp hi
        rfl
      obtain ⟨hTake, hDrop⟩ := aux_takeWhile_split isFolderB _ _ hAllF hFileNotF
      apply aux_levelOrdered_intro
      · rw [levelShape, hTake, hDrop]
        simp only [Bool.and_eq_true]
        refine ⟨⟨?_, ?_⟩, ?_⟩
        · simp only [List.all_eq_true]
          intro i hi
          simp [hFileNotF i hi]
        · -- folder names chain
          rw [hNames]
          have hcongr : (List.insertionSort (dirRel pre) sd).map
              (fun x => basename (joinPath pre x.1)) =
              (List.insertionSort (dirRel pre) sd).map (fun x => x.1) := by
            apply List.map_congr_left
            intro x hx
            exact aux_basename_join pre x.1 (hvd x (hmemd x hx))
          rw [hcongr]
          apply aux_chainLE_of_pairwise
          have hs : List.Sorted (dirRel pre) (List.insertionSort (dirRel pre) sd) :=
            aux_sorted_insertionSort (dirRel pre)
              (fun a b => aux_nameLE_total _ _)
              (fun a b c hab hbc => aux_nameLE_trans _ _ _ hab hbc) sd
          rw [List.pairwise_map]
          exact hs.imp (fun {a b} hab => (aux_join_congr pre a.1 b.1).mp hab)
        · -- file names chain
          have hmm : ((List.insertionSort (fileRel pre) fs).map (fun f =>
              Item.file (joinPath pre f.name) (basename (joinPath pre f.name))
                (sizeOfStat (exceptSV f.statR)) (mtimeOf (exceptSV f.statR)))).map Item.nameF =
              (List.insertionSort (fileRel pre) fs).map (fun f => f.name) := by
            rw [List.map_map]
            apply List.map_congr_left
            intro f hf
            simp only [Function.comp, Item.nameF]
            exact aux_basename_join pre f.name (hvf f (hmemf f hf))
          rw [hmm]
          apply aux_chainLE_of_pairwise
          have hs : List.Sorted (fileRel pre) (List.insertionSort (fileRel pre) fs) :=
            aux_sorted_insertionSort (fileRel pre)
              (fun a b => aux_nameLE_total _ _)
              (fun a b c hab hbc => aux_nameLE_trans _ _ _ hab hbc) fs
          rw [List.pairwise_map]
          exact hs.imp (fun {a b} hab => (aux_join_congr pre a.name b.name).mp hab)
      · intro i hi
        rcases List.mem_append.mp hi with hi | hi
        · exact hKids i hi
        · obtain ⟨f, _, rfl⟩ := List.mem_map.mp hi
          rw [show childListOf (Item.file (joinPath pre f.name)
            (basename (joinPath pre f.name)) (sizeOfStat (exceptSV f.statR))
            (mtimeOf (exceptSV f.statR))) = [] from rfl]
          exact aux_levelOrdered_nil
termination_by sizeOf t
decreasing_by
  simp_wf
  have hp : sizeOf (List.insertionSort (dirRel pre) sd) = sizeOf sd :=
    (List.perm_insertionSort (dirRel pre) sd).sizeOf_eq_sizeOf
  all_goals simp
  all_goals omega

theorem aux_folders_ordered (pre : String) (l : List (String × DTree))
    (h : ∀ x ∈ l, isOkE x.2.statR = true ∧ noFail x.2 = true ∧ validNames x.2 = true) :
    ∃ items, v1FoldersE pre l = .ok items ∧
      items.map Item.nameF = l.map (fun x => basename (joinPath pre x.1)) ∧
      (∀ i ∈ items, isFolderB i = true) ∧
      (∀ i ∈ items, levelOrdered (childListOf i) = true) := by
  match l with
  | [] =>
    refine ⟨[], ?_, rfl, by simp, by simp⟩
    rw [v1FoldersE]
  | x :: rest =>
    obtain ⟨hst, hnf, hvn⟩ := h x (by simp)
    obtain ⟨st, hsteq⟩ : ∃ st, x.2.statR = .ok st := by
      cases hq : x.2.statR with
      | ok v => exact ⟨v, rfl⟩
      | error e => rw [hq] at hst; simp [isOkE] at hst
    obtain ⟨kids, hbuild, hord⟩ := aux_build_ordered (joinPath pre x.1) x.2 hnf hvn
    obtain ⟨items', hrest, hnames', hallf', hkids'⟩ :=
      aux_folders_ordered pre rest (fun y hy => h y (by simp [hy]))
    refine ⟨Item.folder (joinPath pre x.1) (basename (joinPath pre x.1)) (mtimeOf st) kids
      :: items', ?_, ?_, ?_, ?_⟩
    · rw [v1FoldersE]
      simp only [hsteq, hbuild, hrest]
    · simp only [List.map_cons, hnames', Item.nameF]
    · intro i hi
      rcases List.mem_cons.mp hi with rfl | hi
      · rfl
      · exact hallf' i hi
    · intro i hi
      rcases List.mem_cons.mp hi with rfl | hi
      · rw [show childListOf (Item.folder (joinPath pre x.1)
          (basename (joinPath pre x.1)) (mtimeOf st) kids) = kids from rfl]
        exact hord
      · exact hkids' i hi
termination_by sizeOf l
decreasing_by
  all_goals simp_wf
  all_goals try (have h1 : sizeOf x.2 < sizeOf x := by cases x; simp)
  all_goals simp
  all_goals omega

end

-- ============================================================
-- Claim C6: deterministic refresh ordering
-- ============================================================

/-- C6 (amended to the root variant V1; the src variant appends files
before folders in raw listing order without sorting).  For every
error-free listing with proper segment names, V1 refresh succeeds and the
built tree places, at every level, all folder entries before all file
entries, each of the two groups name-sorted under the case-insensitive
collator model. -/
theorem refresh_ordering_amended :
    ∀ (t : DTree) (cur : List Item), noFail t = true → validNames t = true →
      ∃ l, v1Refresh (.ok true) t cur = (.ok (), l) ∧ levelOrdered l = true := by
  intro t cur hn hv
  obtain ⟨l, hb, ho⟩ := aux_build_ordered ".trash" t hn hv
  exact ⟨l, by simp [v1Refresh, hb], ho⟩

/-- Witness for C6: a listing with files b.txt, A.txt and directories
zz, aa is built into an ordered tree. -/
theorem refresh_ordering_amended_witness :
    noFail dWitness = true ∧ validNames dWitness = true ∧
    ∃ l, v1Refresh (.ok true) dWitness [] = (.ok (), l) ∧ levelOrdered l = true := by
  have hde : noFail dEmpty = true := by
    rw [noFail]
    simp [dEmpty, DTree.listR, DTree.files, DTree.subdirs, isOkE]
  have hve : validNames dEmpty = true := by
    rw [validNames]
    simp [dEmpty, DTree.files, DTree.subdirs]
  have hde2 : noFail (DTree.node (.ok none) (.ok ()) [] []) = true := hde
  have hve2 : validNames (DTree.node (.ok none) (.ok ()) [] []) = true := hve
  have hn : noFail dWitness = true := by
    rw [noFail]
    simp [dWitness, dEmpty, DTree.listR, DTree.files, DTree.subdirs, isOkE,
      List.attach, List.pmap, hde2, DTree.statR]
  have hv : validNames dWitness = true := by
    rw [validNames]
    simp [dWitness, dEmpty, DTree.files, DTree.subdirs, nameOK,
      List.attach, List.pmap, hve2]
  exact ⟨hn, hv, refresh_ordering_amended dWitness [] hn hv⟩

/-- Counterexample to C6 as stated: the src scanFolder on a listing with
file "b" and directory "a" yields the file before the folder, unsorted. -/
theorem v2_scan_unordered :
    v2Refresh (.ok true) dUnsorted =
      (.ok (), [Item.file ".trash/b" "b" 0 none, Item.folder ".trash/a" "a" none []]) ∧
    levelOrdered [Item.file ".trash/b" "b" 0 none, Item.folder ".trash/a" "a" none []]
      = false := by
  constructor
  · have h2 : v2ScanE ".trash/a" dEmpty = [] := by
      rw [v2ScanE]
      simp [dEmpty, DTree.listR, DTree.files, DTree.subdirs, v2Files,
        List.attach, List.pmap]
    have h1 : v2ScanE ".trash" dUnsorted =
        [Item.file ".trash/b" "b" 0 none, Item.folder ".trash/a" "a" none []] := by
      rw [v2ScanE]
      simp [dUnsorted, DTree.listR, DTree.files, DTree.subdirs, v2Files,
        List.attach, List.pmap, joinPath, h2]
      constructor
      · decide
      · decide
    simp [v2Refresh, h1]
  · rw [levelOrdered]
    simp [levelShape, isFolderB, List.takeWhile, List.dropWhile]

-- ============================================================
-- Claim C7: fail-safe refresh
-- ============================================================

/-- C7 (amended: in the root variant V1 a storage error during refresh is
NOT caught — it propagates to the caller — but the in-memory tree is left
exactly as before the call, because the children are reassigned only after
a fully successful build; the src variant catches listing errors but has
already cleared the tree).  Whenever V1 refresh does not succeed, the tree
is unchanged, and a build error is surfaced verbatim alongside the
unchanged tree. -/
theorem refresh_fail_safe_amended :
    ∀ (exR : Except String Bool) (t : DTree) (cur : List Item),
      (isOkE (v1Refresh exR t cur).1 = false → (v1Refresh exR t cur).2 = cur) ∧
      (∀ e, v1BuildE ".trash" t = .error e →
        v1Refresh (.ok true) t cur = (.error e, cur)) := by
  intro exR t cur
  constructor
  · intro h
    cases exR with
    | error e => rfl
    | ok b =>
      cases b with
      | false => simp [v1Refresh, isOkE] at h
      | true =>
        simp only [v1Refresh] at h ⊢
        cases hb : v1BuildE ".trash" t with
        | ok l => rw [hb] at h; simp [isOkE] at h
        | error e => rfl
  · intro e he
    simp [v1Refresh, he]

/-- Witness for C7: a trash root whose listing raises makes V1 refresh
surface the error and keep the previous tree. -/
theorem refresh_fail_safe_amended_witness :
    v1BuildE ".trash" dListFails = .error "list raised" ∧
    v1Refresh (.ok true) dListFails [someItem] = (.error "list raised", [someItem]) := by
  have hb : v1BuildE ".trash" dListFails = .error "list raised" := by
    rw [v1BuildE]
    simp [dListFails, DTree.listR]
  exact ⟨hb, (refresh_fail_safe_amended (.ok true) dListFails [someItem]).2 "list raised" hb⟩

/-- Counterexample to C7 as stated: the src refresh on a raising listing
catches the error but ends with an empty tree, so a non-empty pre-refresh
tree is not preserved. -/
theorem v2_refresh_clears_on_error :
    v2Refresh (.ok true) dListFails = (.ok (), []) ∧ ([someItem] : List Item) ≠ [] := by
  constructor
  · have h : v2ScanE ".trash" dListFails = [] := by
      rw [v2ScanE]
      simp [dListFails, DTree.listR]
    simp [v2Refresh, h]
  · simp
